import Mathlib

/-!
Shallow embedding of the form-mcp server core: the dynamic form-field objects,
the HTTP submission handlers of `src/http-server.ts`, the `createForm` /
`getResponses` tool handlers and the MCP session gate of the server entrypoint,
the legacy tool handler variant, and the reload-on-read storage layer
(`storage.ts`, the variant whose `getForm` re-reads the backing file).

JavaScript dynamic values are modelled explicitly: absent object properties are
`Option.none`; JS truthiness of a string ("" is falsy) and of an array (always
truthy, even `[]`) is spelled out; interpolation of `undefined` into a template
string yields the text "undefined", and using an `undefined` field id as an
object key coerces it to the key "undefined".
-/

namespace FormMcp

/-- A form-encoded request-body value as express urlencoded delivers it:
either a single string or an array of strings (repeated keys). -/
inductive FormValue where
  | str (s : String)
  | arr (l : List String)
deriving Repr, DecidableEq

/-- JS truthiness of a body value: a string is truthy iff non-empty;
an array is always truthy (even the empty array). -/
def FormValue.truthy : FormValue → Bool
  | .str s => s != ""
  | .arr _ => true

/-- An association list standing for a JS object (request body, errors map,
responses map); only lookup and key-assignment are used by the code. -/
abbrev Assoc (α : Type) := List (String × α)

/-- Request body / responses object. -/
abbrev Data := Assoc FormValue

/-- Assignment `obj[k] = v` on a JS object: replaces the value of an existing
key, appends a new key at the end. -/
def setKey {α : Type} : Assoc α → String → α → Assoc α
  | [], k, v => [(k, v)]
  | (kq, vq) :: rest, k, v =>
      if kq = k then (k, v) :: rest else (kq, vq) :: setKey rest k v

/-- JS truthiness of a possibly-absent string property:
absent and the empty string are falsy. -/
def truthyOpt : Option String → Bool
  | none => false
  | some s => s != ""

/-- A dynamic form-field object as it flows through the code: every property
may be absent (`id`, `label`, `type`, `options`), `name` is the compatibility
synonym some callers send in place of `id`. -/
structure Field where
  id : Option String
  name : Option String
  label : Option String
  type : Option String
  required : Bool
  options : Option (List String)
deriving Repr, DecidableEq

/-- The object key `data[field.id]` resolves to: JS coerces an `undefined`
property name to the string key "undefined". -/
def Field.key (f : Field) : String := f.id.getD "undefined"

/-- Template interpolation of the (possibly absent) label: undefined prints
as "undefined". -/
def Field.labelStr (f : Field) : String := f.label.getD "undefined"

/-- Template interpolation of the (possibly absent) type. -/
def Field.typeStr (f : Field) : String := f.type.getD "undefined"

/-- A form schema object: title, optional description, list of fields. -/
structure Schema where
  title : Option String
  description : Option String
  fields : List Field
deriving Repr, DecidableEq

/-- A stored form record (`FormData` in `types.ts`): the schema, the submitted
responses (null until submission) and the submitted flag. -/
structure FormData where
  schema : Schema
  responses : Option Data
  submitted : Bool
deriving Repr, DecidableEq

/-- The storage map from form id to record (the in-memory `Map`). -/
abbrev Forms := Assoc FormData

/-- Conditional assignment `if (c) obj[k] = v` on a JS object. -/
def setIf {α : Type} (b : Bool) (m : Assoc α) (k : String) (v : α) : Assoc α :=
  if b then setKey m k v else m

/-- The checkbox value normalization of `validateFormData`: absent becomes
the empty list, an array is kept, a scalar is wrapped in a singleton. -/
def normCheckbox : Option FormValue → List String
  | none => []
  | some (.arr l) => l
  | some (.str s) => [s]

/-- The checkbox options check of `validateFormData`: it runs whenever
`field.options` is present (a JS array is truthy even when empty) and the
normalized list is non-empty, and trips when some normalized element is not
among the options (`invalidOptions.length > 0`). -/
def cbOptsInvalid (f : Field) (norm : List String) : Bool :=
  match f.options with
  | some opts =>
      norm.length > 0 &&
        (norm.filter (fun v => !(opts.contains v))).length > 0
  | none => false

/-- Is the (possibly absent) body value an array? -/
def isArrOpt : Option FormValue → Bool
  | some (.arr _) => true
  | _ => false

/-- The non-checkbox required test `!value || value.trim() === ""` in the
cases where it does not throw: absent or empty/whitespace-only string. -/
def requiredEmpty : Option FormValue → Bool
  | none => true
  | some (.str s) => s == "" || s.trim == ""
  | some (.arr _) => false

/-- The JS `field.options.includes(value)`: an array value compares unequal
to every option string. -/
def valueIncluded (v : FormValue) (opts : List String) : Bool :=
  match v with
  | .str s => opts.contains s
  | .arr _ => false

/-- The radio/select option check of `validateFormData`: the field has the
given type, the value is truthy, options are present, and the value is not
among them. -/
def optInvalid (f : Field) (t : String) (value : Option FormValue) : Bool :=
  f.type == some t &&
    (match value, f.options with
     | some v, some opts => v.truthy && !(valueIncluded v opts)
     | _, _ => false)

/-- One iteration of the `validateFormData` loop of `src/http-server.ts` for a
single field, threading the `errors` and `responses` objects. Returns `none`
when the JS code would throw a TypeError: a non-checkbox required field whose
submitted value is an array is truthy, so the code reaches `value.trim()`,
which does not exist on arrays. -/
def processField (f : Field) (d : Data) (es : Assoc String) (rs : Data) :
    Option (Assoc String × Data) :=
  let value := d.lookup f.key
  if f.type == some "checkbox" then
    -- checkboxes: undefined → [], array kept, scalar wrapped; then the
    -- required check, then the options membership check (which overwrites
    -- the error slot; the two conditions are disjoint)
    let norm := normCheckbox value
    let rs1 := setKey rs f.key (.arr norm)
    let es1 := setIf (f.required && norm.length == 0) es f.key
      (f.labelStr ++ " is required")
    let es2 := setIf (cbOptsInvalid f norm) es1 f.key
      ("Invalid options selected for " ++ f.labelStr)
    some (es2, rs1)
  else
    -- other field types: `responses[id] = value || ""`
    let rs1 := setKey rs f.key
      (match value with
       | none => .str ""
       | some v => if v.truthy then v else .str "")
    -- `field.required && (!value || value.trim())`: an array value is
    -- truthy and has no `trim`, so the code throws
    if f.required && isArrOpt value then none
    else
      let es1 := setIf (f.required && requiredEmpty value) es f.key
        (f.labelStr ++ " is required")
      let es2 := setIf (optInvalid f "radio" value) es1 f.key
        ("Invalid option selected for " ++ f.labelStr)
      let es3 := setIf (optInvalid f "select" value) es2 f.key
        ("Invalid option selected for " ++ f.labelStr)
      some (es3, rs1)

/-- The field loop of `validateFormData`: processes fields in order; a thrown
TypeError (`none`) aborts the whole call. -/
def runFields (fs : List Field) (d : Data) (es : Assoc String) (rs : Data) :
    Option (Assoc String × Data) :=
  match fs with
  | [] => some (es, rs)
  | f :: rest =>
      match processField f d es rs with
      | none => none
      | some (es1, rs1) => runFields rest d es1 rs1

/-- `validateFormData(schema, data)` of `src/http-server.ts`: returns the
`errors` and `responses` objects, or `none` when the code throws. -/
def validateFormData (schema : Schema) (d : Data) :
    Option (Assoc String × Data) :=
  runFields schema.fields d [] []

/-- Responses of the `POST /forms/:id` handler. -/
inductive PostResponse where
  | notFound
  | alreadySubmitted
  | forbidden
  | formWithErrors (errors : Assoc String)
  | success
  | serverError
deriving Repr, DecidableEq

/-- HTTP status code each `POST /forms/:id` response is sent with: 404 for the
not-found JSON, 403 for the CSRF rejection, 500 for an uncaught throw, and 200
(the express default for `res.send`) for every rendered page. -/
def PostResponse.status : PostResponse → Nat
  | .notFound => 404
  | .alreadySubmitted => 200
  | .forbidden => 403
  | .formWithErrors _ => 200
  | .success => 200
  | .serverError => 500

/-- The synchronous body of the `POST /forms/:id` handler run against a
storage map: not-found check, already-submitted check, CSRF token check,
validation, then commit (set `responses`, set `submitted`, `setForm`).
Returns the response and the updated map. -/
def postForm (st : Forms) (formId : String) (body : Data) :
    PostResponse × Forms :=
  match st.lookup formId with
  | none => (.notFound, st)
  | some formData =>
    if formData.submitted then (.alreadySubmitted, st)
    else if !(body.lookup "csrf_token" == some (.str formId)) then
      (.forbidden, st)
    else
      match validateFormData formData.schema body with
      | none => (.serverError, st)
      | some (errors, responses) =>
        if errors.length > 0 then (.formWithErrors errors, st)
        else
          (.success,
           setKey st formId
             { formData with responses := some responses, submitted := true })

/-- Responses of the `GET /forms/:id` handler. -/
inductive GetPage where
  | notFoundPage
  | alreadySubmittedPage
  | formPage (formId : String) (schema : Schema)
deriving Repr, DecidableEq

/-- The `GET /forms/:id` handler: 404 page for an unknown id, the read-only
already-submitted view for a submitted record, the editable form otherwise. -/
def getFormPage (st : Forms) (formId : String) : GetPage :=
  match st.lookup formId with
  | none => .notFoundPage
  | some formData =>
    if formData.submitted then .alreadySubmittedPage
    else .formPage formId formData.schema

/-- Result of the `createForm` tool call: the generated id and derived URL. -/
structure CreateFormResponse where
  formId : String
  url : String
deriving Repr, DecidableEq

/-- Result of the `getResponses` tool call. -/
structure GetResponsesResponse where
  submitted : Bool
  responses : Option Data
deriving Repr, DecidableEq

/-- The in-place `name` → `id` normalization of the `createForm` handler:
when `field.id` is falsy and `field.name` is truthy, copy `name` into `id`. -/
def normalizeField (f : Field) : Field :=
  if !truthyOpt f.id && truthyOpt f.name then { f with id := f.name } else f

/-- Is the field type one of the choice kinds `select`, `radio`, `checkbox`?
An absent type is not in the list. -/
def isChoiceType (t : Option String) : Bool :=
  match t with
  | some s => ["select", "radio", "checkbox"].contains s
  | none => false

/-- The JS condition `!field.options || field.options.length === 0`. -/
def optionsMissing (o : Option (List String)) : Bool :=
  match o with
  | none => true
  | some l => l.length == 0

/-- One iteration of the field-validation loop of the `createForm` handler of
the McpServer entrypoint: apply the `name` fallback, reject a field whose id
is still falsy, reject a choice field with absent or empty options, otherwise
keep the normalized field. -/
def checkField (f : Field) : Except String Field :=
  let f := normalizeField f
  if !truthyOpt f.id then
    .error "Field must have \x27id\x27 or \x27name\x27 property"
  else if isChoiceType f.type && optionsMissing f.options then
    .error ("Field type " ++ f.typeStr ++ " requires options array")
  else .ok f

/-- The whole field-validation loop of `createForm`: field objects are mutated
in place, so the normalized fields are what ends up stored. -/
def checkFields (fs : List Field) : Except String (List Field) :=
  match fs with
  | [] => .ok []
  | f :: rest =>
    match checkField f with
    | .error e => .error e
    | .ok fq =>
      match checkFields rest with
      | .error e => .error e
      | .ok rest1 => .ok (fq :: rest1)

/-- The `createForm` tool handler of the McpServer entrypoint, run against a
storage map: validate and normalize the fields, generate the URL from the
configured hostname and the fresh id, store the record with `responses: null`
and `submitted: false`, return `{formId, url}`. A thrown validation error is
caught and returned as an error result (`isError: true`). -/
def createForm (schema : Schema) (formId : String) (hostname : String)
    (st : Forms) : Except String (CreateFormResponse × Forms) :=
  match checkFields schema.fields with
  | .error e => .error e
  | .ok fieldsN =>
    let url := hostname ++ "/forms/" ++ formId
    .ok (⟨formId, url⟩,
         setKey st formId
           ⟨{ schema with fields := fieldsN }, none, false⟩)

/-- The `getResponses` tool handler: look the form up (the storage `getForm`),
error result containing "not found" for an unknown id, otherwise the record's
submitted flag and responses. -/
def getResponses (st : Forms) (formId : String) :
    Except String GetResponsesResponse :=
  match st.lookup formId with
  | none => .error ("Form with ID " ++ formId ++ " not found")
  | some formData => .ok ⟨formData.submitted, formData.responses⟩

/-- One iteration of the field-validation loop of the legacy `Server`
entrypoint (`CallToolRequestSchema` handler): requires id, label and type to
all be truthy (no `name` fallback), requires a recognized type, and options
for choice types. -/
def checkFieldLegacy (f : Field) : Except String Unit :=
  if !truthyOpt f.id || !truthyOpt f.label || !truthyOpt f.type then
    .error "Invalid field: each field must have id, label, and type"
  else if !(match f.type with
            | some s => ["text", "textarea", "select", "radio", "checkbox"].contains s
            | none => false) then
    .error ("Invalid field type: " ++ f.typeStr)
  else if isChoiceType f.type && optionsMissing f.options then
    .error ("Field type " ++ f.typeStr ++ " requires options array")
  else .ok ()

/-- A request to the MCP POST endpoint: the session-id header (absent or a
string) and whether the body is an initialize request. -/
structure McpRequest where
  sessionId : Option String
  isInit : Bool
deriving Repr, DecidableEq

/-- Responses of the MCP POST endpoint handler, abstracting the transport
dispatch: handled on an existing session, handled as a new initialization
(registering the fresh session id), or the 400 rejection whose JSON-RPC body
carries the given code and message. -/
inductive McpResponse where
  | handled (sessionId : String)
  | handledInit (sessionId : String)
  | badRequest (code : Int) (message : String)
deriving Repr, DecidableEq

/-- HTTP status of an MCP POST response: the rejection is sent with 400. -/
def McpResponse.status : McpResponse → Nat
  | .handled _ => 200
  | .handledInit _ => 200
  | .badRequest _ _ => 400

/-- The `mcpPostHandler` branch structure of the McpServer entrypoint: reuse a
registered transport when the header names one; create and register a new
session only for an initialize request with no session header; otherwise
answer 400 with the JSON-RPC error `-32000` / "Bad Request: No valid session
ID provided" and register nothing. The session table is the list of
registered session ids. -/
def mcpPostHandler (transports : List String) (freshId : String)
    (req : McpRequest) : McpResponse × List String :=
  match req.sessionId with
  | some sid =>
    if sid != "" && transports.contains sid then (.handled sid, transports)
    else if sid == "" && req.isInit then
      (.handledInit freshId, freshId :: transports)
    else
      (.badRequest (-32000) "Bad Request: No valid session ID provided",
       transports)
  | none =>
    if req.isInit then (.handledInit freshId, freshId :: transports)
    else
      (.badRequest (-32000) "Bad Request: No valid session ID provided",
       transports)

/-!
Event-loop model of two concurrent `POST /forms/:id` requests against the
reload-on-read storage variant (`Storage.getForm` awaits a re-read of the
backing file and replaces the in-memory map with the file contents;
`Storage.setForm` updates the map synchronously and fires off an asynchronous
`save` whose snapshot of the map is taken synchronously at call time).

Each handler suspends once, at the awaited file read inside `getForm`; from
the moment that read resolves, the rest of the handler (checks, validation,
mutation, `setForm`) runs atomically on the event loop. Pending `save`
snapshots are flushed to the file FIFO by later turns of the loop.
-/

/-- Synchronous tail of the POST handler in the reload-on-read model: run
against the freshly reloaded map, returns the response, the updated in-memory
map, and the `save` snapshot when a commit happened. -/
def postSync (mem : Forms) (formId : String) (body : Data) :
    PostResponse × Forms × Option Forms :=
  match mem.lookup formId with
  | none => (.notFound, mem, none)
  | some formData =>
    if formData.submitted then (.alreadySubmitted, mem, none)
    else if !(body.lookup "csrf_token" == some (.str formId)) then
      (.forbidden, mem, none)
    else
      match validateFormData formData.schema body with
      | none => (.serverError, mem, none)
      | some (errors, responses) =>
        if errors.length > 0 then (.formWithErrors errors, mem, none)
        else
          let memq := setKey mem formId
            { formData with responses := some responses, submitted := true }
          (.success, memq, some memq)

/-- State of the two-request system: the backing file, the in-memory map,
the FIFO queue of pending save snapshots, and each request1s response once it
has resumed and completed. -/
structure SysState where
  file : Forms
  mem : Forms
  pending : List Forms
  respA : Option PostResponse
  respB : Option PostResponse
deriving Repr, DecidableEq

/-- Schedulable events: the resolution of request A's (resp. B's) awaited
file read — which reloads the map from the current file contents and then
runs that handler to completion — and the completion of the oldest pending
save, which overwrites the file with its snapshot. -/
inductive Ev where
  | readA
  | readB
  | flush
deriving Repr, DecidableEq

/-- One event-loop step of the two-request system. -/
def stepEv (formId : String) (bodyA bodyB : Data) (s : SysState) (e : Ev) :
    SysState :=
  match e with
  | .readA =>
    match s.respA with
    | some _ => s
    | none =>
      let (resp, memq, snap) := postSync s.file formId bodyA
      { s with mem := memq, pending := s.pending ++ snap.toList,
               respA := some resp }
  | .readB =>
    match s.respB with
    | some _ => s
    | none =>
      let (resp, memq, snap) := postSync s.file formId bodyB
      { s with mem := memq, pending := s.pending ++ snap.toList,
               respB := some resp }
  | .flush =>
    match s.pending with
    | [] => s
    | w :: ws => { s with file := w, pending := ws }

/-- Run a schedule of events from an initial state. -/
def runSched (formId : String) (bodyA bodyB : Data) (s : SysState)
    (sched : List Ev) : SysState :=
  sched.foldl (stepEv formId bodyA bodyB) s

/-- Initial state: the form record is in both the file and memory, nothing
pending, neither request resumed yet. -/
def initState (formId : String) (rec : FormData) : SysState :=
  ⟨[(formId, rec)], [(formId, rec)], [], none, none⟩

/-! Sample objects used by the concrete witnesses and counterexamples. -/

/-- A plain optional text field. -/
def sampleField : Field := ⟨some "f", none, some "F", some "text", false, none⟩

/-- A schema with the single text field. -/
def sampleSchema : Schema := ⟨some "T", none, [sampleField]⟩

/-- An open (unsubmitted) record of the sample schema. -/
def openRec : FormData := ⟨sampleSchema, none, false⟩

/-- A submitted record of the sample schema. -/
def submittedRec : FormData := ⟨sampleSchema, some [("f", .str "done")], true⟩

/-- Does the second character list start with the first? -/
def startsWithChars : List Char → List Char → Bool
  | [], _ => true
  | _ :: _, [] => false
  | a :: as, b :: bs => a == b && startsWithChars as bs

/-- Does the second character list contain the first as a contiguous run? -/
def hasSubChars (sub l : List Char) : Bool :=
  match l with
  | [] => sub.isEmpty
  | _ :: rest => startsWithChars sub l || hasSubChars sub rest

/-- Does one string contain another as a substring? -/
def containsStr (m sub : String) : Bool := hasSubChars sub.toList m.toList

/-- A valid submission body carrying the CSRF token and the value "A". -/
def bodyA : Data := [("csrf_token", .str "fid"), ("f", .str "A")]

/-- A valid submission body carrying the CSRF token and the value "B". -/
def bodyB : Data := [("csrf_token", .str "fid"), ("f", .str "B")]

/-- The two-request run in which both reads resolve before either save
flushes: request A resumes first and commits, request B's reload then still
sees the pre-commit file contents. -/
def raceRun : SysState :=
  runSched "fid" bodyA bodyB (initState "fid" openRec)
    [.readA, .readB, .flush, .flush]

/-- The error `validateFormData` ends up recording for a checkbox field with
options `opts`: the required error when required and the normalized list is
empty, the invalid-option error when the list is non-empty and some element
is not among the options, otherwise nothing. -/
def checkboxError (f : Field) (opts : List String) (norm : List String) :
    Option String :=
  if f.required && norm.isEmpty then some (f.labelStr ++ " is required")
  else if !norm.isEmpty && norm.any (fun v => !(opts.contains v)) then
    some ("Invalid options selected for " ++ f.labelStr)
  else none

/-- Is the field a choice field with absent or empty options (the condition
the `createForm` validation loop rejects)? -/
def badOptionsField (f : Field) : Bool :=
  isChoiceType f.type && optionsMissing f.options

/-! Helper lemmas about object assignment and lookup. -/

theorem lookup_setKey_self {α : Type} (m : Assoc α) (k : String) (v : α) :
    (setKey m k v).lookup k = some v := by
  induction m with
  | nil => simp [setKey, List.lookup]
  | cons p rest ih =>
    obtain ⟨kq, vq⟩ := p
    by_cases h : kq = k
    · subst h; simp [setKey, List.lookup]
    · simp only [setKey, if_neg h, List.lookup]
      have hb : (k == kq) = false := by
        simp [beq_eq_false_iff_ne]
        exact fun hk => h hk.symm
      simp [hb, ih]

theorem lookup_setKey_ne {α : Type} (m : Assoc α) (k kq : String) (v : α)
    (h : kq ≠ k) : (setKey m k v).lookup kq = m.lookup kq := by
  induction m with
  | nil =>
    simp [setKey, List.lookup, beq_eq_false_iff_ne.mpr h]
  | cons p rest ih =>
    obtain ⟨k₀, v₀⟩ := p
    by_cases h₀ : k₀ = k
    · subst h₀
      simp [setKey, List.lookup, beq_eq_false_iff_ne.mpr h]
    · simp only [setKey, if_neg h₀, List.lookup]
      cases hb : (kq == k₀) <;> simp [hb, ih]

/-! Claim theorems. -/

/-- C2: `SUBMITTED` is terminal — once a record's submission is present,
every further POST to `/forms/{id}` answers with the already-submitted page
and leaves the storage map unchanged, and every further GET renders the
read-only already-submitted view rather than the editable form. -/
theorem C2_submitted_terminal (st : Forms) (formId : String) (fd : FormData)
    (body : Data) (hlook : st.lookup formId = some fd)
    (hsub : fd.submitted = true) :
    postForm st formId body = (.alreadySubmitted, st) ∧
    getFormPage st formId = .alreadySubmittedPage := by
  constructor
  · simp [postForm, hlook, hsub]
  · simp [getFormPage, hlook, hsub]

/-- C2 witness: the theorem applied to a concrete submitted record. -/
theorem C2_submitted_terminal_witness :
    postForm [("fid", submittedRec)] "fid" [] =
      (.alreadySubmitted, [("fid", submittedRec)]) ∧
    getFormPage [("fid", submittedRec)] "fid" = .alreadySubmittedPage :=
  C2_submitted_terminal [("fid", submittedRec)] "fid" submittedRec []
    (by rfl) (by rfl)

/-- C3: create/read round trip — for a form definition whose fields pass the
`createForm` validation, `createForm` succeeds with the interpolated URL and
`getResponses` on the returned id succeeds with `{submitted: false,
responses: null}`, the stored definition being the validated (normalized)
input. -/
theorem C3_create_then_get (schema : Schema) (formId hostname : String)
    (st : Forms) (fieldsN : List Field)
    (hval : checkFields schema.fields = .ok fieldsN) :
    ∃ st1,
      createForm schema formId hostname st =
        .ok (⟨formId, hostname ++ "/forms/" ++ formId⟩, st1) ∧
      getResponses st1 formId = .ok ⟨false, none⟩ ∧
      st1.lookup formId = some ⟨{ schema with fields := fieldsN }, none, false⟩ := by
  refine ⟨setKey st formId ⟨{ schema with fields := fieldsN }, none, false⟩,
    ?_, ?_, ?_⟩
  · simp [createForm, hval]
  · simp [getResponses, lookup_setKey_self]
  · exact lookup_setKey_self st formId _

/-- C3 witness: the round trip at a concrete valid schema. -/
theorem C3_create_then_get_witness :
    ∃ st1,
      createForm sampleSchema "fid" "http://localhost:3000" [] =
        .ok (⟨"fid", "http://localhost:3000" ++ "/forms/" ++ "fid"⟩, st1) ∧
      getResponses st1 "fid" = .ok ⟨false, none⟩ ∧
      st1.lookup "fid" =
        some ⟨{ sampleSchema with fields := [sampleField] }, none, false⟩ :=
  C3_create_then_get sampleSchema "fid" "http://localhost:3000" []
    [sampleField] (by rfl)

/-- C5: all-or-nothing submission — on an open form with a matching CSRF
token, when validation reports at least one field error the handler re-renders
the form with the full per-field error map and the storage map is left
entirely unchanged (no partial commit). -/
theorem C5_all_or_nothing (st : Forms) (formId : String) (fd : FormData)
    (body : Data) (errors : Assoc String) (responses : Data)
    (hlook : st.lookup formId = some fd) (hopen : fd.submitted = false)
    (hcsrf : body.lookup "csrf_token" = some (.str formId))
    (hval : validateFormData fd.schema body = some (errors, responses))
    (herr : errors ≠ []) :
    postForm st formId body = (.formWithErrors errors, st) := by
  have hlen : errors.length > 0 := List.length_pos.mpr herr
  simp [postForm, hlook, hopen, hcsrf, hval, hlen]

/-- C5 witness: a required text field submitted empty — form re-rendered with
the error, state unchanged. -/
theorem C5_all_or_nothing_witness :
    postForm [("fid", FormData.mk ⟨some "T", none,
        [⟨some "r", none, some "R", some "text", true, none⟩]⟩ none false)]
      "fid" [("csrf_token", .str "fid")] =
      (.formWithErrors [("r", "R is required")],
       [("fid", FormData.mk ⟨some "T", none,
          [⟨some "r", none, some "R", some "text", true, none⟩]⟩ none false)]) :=
  C5_all_or_nothing _ "fid" _ _ [("r", "R is required")]
    [("r", .str "")] (by rfl) (by rfl) (by rfl) (by rfl) (by decide)

/-- C6 counterexample: the claim quantifies over every POST with a mismatched
token, but on an already-submitted record such a POST is answered with the
already-submitted page at HTTP 200, not 403. -/
theorem C6_csrf_counterexample :
    ([("csrf_token", FormValue.str "WRONG")].lookup "csrf_token" ≠
      some (FormValue.str "fid")) ∧
    postForm [("fid", submittedRec)] "fid"
      [("csrf_token", FormValue.str "WRONG")] =
      (.alreadySubmitted, [("fid", submittedRec)]) ∧
    PostResponse.alreadySubmitted.status = 200 := by
  refine ⟨by decide, by rfl, by rfl⟩

/-- C6 amended: on an existing, still-open form, a POST whose `csrf_token`
body field does not equal the form id is rejected with HTTP 403 and the
storage map is unchanged; on a submitted or unknown form the earlier checks
answer first. -/
theorem C6_csrf_rejection (st : Forms) (formId : String) (fd : FormData)
    (body : Data) (hlook : st.lookup formId = some fd)
    (hopen : fd.submitted = false)
    (hcsrf : body.lookup "csrf_token" ≠ some (.str formId)) :
    postForm st formId body = (.forbidden, st) ∧
    PostResponse.forbidden.status = 403 := by
  refine ⟨?_, rfl⟩
  have hb : (body.lookup "csrf_token" == some (FormValue.str formId)) = false :=
    beq_eq_false_iff_ne.mpr hcsrf
  simp [postForm, hlook, hopen, hb]

/-- C6 amended witness: a concrete open form and a wrong token. -/
theorem C6_csrf_rejection_witness :
    postForm [("fid", openRec)] "fid" [("csrf_token", FormValue.str "WRONG")] =
      (.forbidden, [("fid", openRec)]) ∧
    PostResponse.forbidden.status = 403 :=
  C6_csrf_rejection [("fid", openRec)] "fid" openRec
    [("csrf_token", FormValue.str "WRONG")] (by rfl) (by rfl) (by decide)

/-- C9: session gate — a non-initialization POST to the MCP endpoint whose
session header is absent, empty, or names no registered session is answered
with HTTP 400 carrying the JSON-RPC error code -32000 and message "Bad
Request: No valid session ID provided", and the session table is unchanged
(no session is created or registered). -/
theorem C9_session_gate (transports : List String) (freshId : String)
    (req : McpRequest) (hninit : req.isInit = false)
    (hnorec : ∀ s, req.sessionId = some s →
      s = "" ∨ transports.contains s = false) :
    mcpPostHandler transports freshId req =
      (.badRequest (-32000) "Bad Request: No valid session ID provided",
       transports) ∧
    (mcpPostHandler transports freshId req).1.status = 400 := by
  have hmain : mcpPostHandler transports freshId req =
      (.badRequest (-32000) "Bad Request: No valid session ID provided",
       transports) := by
    cases hsid : req.sessionId with
    | none => simp [mcpPostHandler, hsid, hninit]
    | some s =>
      rcases hnorec s hsid with h | h
      · subst h; simp [mcpPostHandler, hsid, hninit]
      · by_cases he : s = ""
        · subst he; simp [mcpPostHandler, hsid, hninit]
        · have hmem : s ∉ transports := by simpa using h
          simp [mcpPostHandler, hsid, hninit, hmem, he]
  exact ⟨hmain, by rw [hmain]; rfl⟩

/-- C9 witness: a non-init POST carrying an unregistered session id. -/
theorem C9_session_gate_witness :
    mcpPostHandler ["s1"] "new" ⟨some "zz", false⟩ =
      (.badRequest (-32000) "Bad Request: No valid session ID provided",
       ["s1"]) ∧
    (mcpPostHandler ["s1"] "new" ⟨some "zz", false⟩).1.status = 400 :=
  C9_session_gate ["s1"] "new" ⟨some "zz", false⟩ (by rfl)
    (by intro s hs; injection hs with h; right; subst h; decide)

/-- C10: POST handler check ordering — the already-submitted check precedes
the CSRF check, so a POST to a submitted form answers 200 with the
already-submitted page whatever the token is, with the map unchanged; and a
POST to an unknown id answers 404, not 403. -/
theorem C10_check_ordering (st : Forms) (formId : String) (fd : FormData)
    (body : Data) (hlook : st.lookup formId = some fd)
    (hsub : fd.submitted = true) :
    (postForm st formId body = (.alreadySubmitted, st) ∧
     PostResponse.alreadySubmitted.status = 200) ∧
    (∀ (st1 : Forms) (idq : String) (bodyq : Data),
      st1.lookup idq = none →
      postForm st1 idq bodyq = (.notFound, st1) ∧
      PostResponse.notFound.status = 404) := by
  refine ⟨⟨?_, rfl⟩, fun st1 idq bodyq hnone => ⟨?_, rfl⟩⟩
  · simp [postForm, hlook, hsub]
  · simp [postForm, hnone]

/-- C10 witness: a submitted record with an absent token answers 200, and an
unknown id answers 404. -/
theorem C10_check_ordering_witness :
    (postForm [("fid", submittedRec)] "fid" [] =
      (.alreadySubmitted, [("fid", submittedRec)]) ∧
     PostResponse.alreadySubmitted.status = 200) ∧
    (∀ (st1 : Forms) (idq : String) (bodyq : Data),
      st1.lookup idq = none →
      postForm st1 idq bodyq = (.notFound, st1) ∧
      PostResponse.notFound.status = 404) :=
  C10_check_ordering [("fid", submittedRec)] "fid" submittedRec []
    (by rfl) (by rfl)

/-- C1: exactly-once submission fails on the reload-on-read storage — in the
schedule where both handlers1 file reads resolve before either fire-and-forget
save flushes, both concurrent POSTs with valid, non-conflicting data are
answered with the success page (both transition the record they read), and the
final stored state carries the second submission's values, overwriting the
first committed submission. -/
theorem C1_double_commit :
    raceRun.respA = some .success ∧ raceRun.respB = some .success ∧
    getResponses raceRun.file "fid" = .ok ⟨true, some [("f", .str "B")]⟩ := by
  refine ⟨rfl, rfl, rfl⟩

/-- Normalization does not touch the field type. -/
theorem normalizeField_type (f : Field) : (normalizeField f).type = f.type := by
  unfold normalizeField; split <;> rfl

/-- Normalization does not touch the field options. -/
theorem normalizeField_options (f : Field) :
    (normalizeField f).options = f.options := by
  unfold normalizeField; split <;> rfl

/-- Normalization does not touch the required flag, the label, or the name. -/
theorem normalizeField_label (f : Field) :
    (normalizeField f).label = f.label := by
  unfold normalizeField; split <;> rfl

/-- A field whose id is truthy is left unchanged by normalization. -/
theorem normalizeField_id_truthy (f : Field) (h : truthyOpt f.id = true) :
    normalizeField f = f := by
  unfold normalizeField
  simp [h]

/-- When every field has a truthy id after normalization and some field is a
choice field with missing options, the `createForm` validation loop fails
with the requires-options message of the first such field. -/
theorem checkFields_first_bad (fs : List Field)
    (hids : ∀ f ∈ fs, truthyOpt (normalizeField f).id = true)
    (hbad : ∃ f ∈ fs, badOptionsField f = true) :
    ∃ f ∈ fs, badOptionsField f = true ∧
      checkFields fs =
        .error ("Field type " ++ f.typeStr ++ " requires options array") := by
  induction fs with
  | nil => rcases hbad with ⟨f, hf, _⟩; cases hf
  | cons g rest ih =>
    have hg : truthyOpt (normalizeField g).id = true :=
      hids g (List.mem_cons_self g rest)
    have hbadg : badOptionsField (normalizeField g) = badOptionsField g := by
      unfold badOptionsField
      rw [normalizeField_type, normalizeField_options]
    by_cases hb : badOptionsField g = true
    · refine ⟨g, List.mem_cons_self g rest, hb, ?_⟩
      have hcf : checkField g =
          .error ("Field type " ++ g.typeStr ++ " requires options array") := by
        unfold checkField
        have : (isChoiceType (normalizeField g).type &&
            optionsMissing (normalizeField g).options) = true := by
          rw [← badOptionsField]; rw [hbadg]; exact hb
        simp [hg, this]
        unfold Field.typeStr
        rw [normalizeField_type]
      simp [checkFields, hcf]
    · have hok : checkField g = .ok (normalizeField g) := by
        unfold checkField
        have : (isChoiceType (normalizeField g).type &&
            optionsMissing (normalizeField g).options) = false := by
          rw [← badOptionsField]; rw [hbadg]
          exact eq_false_of_ne_true hb
        simp [hg, this]
      rcases hbad with ⟨f, hf, hfbad⟩
      rcases List.mem_cons.mp hf with rfl | hfr
      · exact absurd hfbad hb
      · obtain ⟨fq, hm, hb1, he⟩ :=
          ih (fun f hf => hids f (List.mem_cons_of_mem _ hf)) ⟨f, hfr, hfbad⟩
        refine ⟨fq, List.mem_cons_of_mem _ hm, hb1, ?_⟩
        simp [checkFields, hok, he]

/-- C7 counterexample: a definition whose first field lacks both `id` and
`name` and whose second field is a choice field without options makes
`createForm` fail with the id/name message — the error text does not contain
"requires options", though the definition does contain an optionless choice
field. -/
theorem C7_missing_options_counterexample :
    createForm ⟨some "T", none,
        [⟨none, none, some "L", some "text", false, none⟩,
         ⟨some "c", none, some "C", some "select", true, none⟩]⟩
      "i" "h" [] =
      .error "Field must have \x27id\x27 or \x27name\x27 property" ∧
    containsStr "Field must have \x27id\x27 or \x27name\x27 property"
      "requires options" = false ∧
    badOptionsField ⟨some "c", none, some "C", some "select", true, none⟩ =
      true := by
  refine ⟨by rfl, by rfl, by rfl⟩

/-- C7 amended: provided every field carries a truthy id after the `name`
fallback (so no field fails attribute validation first), a definition
containing a choice field with absent or empty options makes `createForm`
fail, and the error is the requires-options message naming that field's kind:
"Field type {kind} requires options array". -/
theorem C7_missing_options (schema : Schema) (formId hostname : String)
    (st : Forms)
    (hids : ∀ f ∈ schema.fields, truthyOpt (normalizeField f).id = true)
    (hbad : ∃ f ∈ schema.fields, badOptionsField f = true) :
    ∃ f ∈ schema.fields, badOptionsField f = true ∧
      createForm schema formId hostname st =
        .error ("Field type " ++ f.typeStr ++ " requires options array") := by
  obtain ⟨f, hm, hb, he⟩ := checkFields_first_bad schema.fields hids hbad
  exact ⟨f, hm, hb, by simp [createForm, he]⟩

/-- C7 witness: a single select field without options; the error message
contains the kind token "select" and the text "requires options". -/
theorem C7_missing_options_witness :
    (∃ f ∈ [Field.mk (some "c") none (some "C") (some "select") true none],
      badOptionsField f = true ∧
      createForm ⟨some "T", none,
          [⟨some "c", none, some "C", some "select", true, none⟩]⟩
        "i" "h" [] =
        .error ("Field type " ++ f.typeStr ++ " requires options array")) ∧
    containsStr "Field type select requires options array"
      "requires options" = true ∧
    containsStr "Field type select requires options array" "select" = true :=
  ⟨C7_missing_options ⟨some "T", none,
      [⟨some "c", none, some "C", some "select", true, none⟩]⟩ "i" "h" []
    (by decide) (by decide), by rfl, by rfl⟩

/-- C8 counterexample: in the `createForm` validation loop, a field with an
id but with absent label and absent kind is accepted — absent label or kind
does not cause a missing-field-attribute failure. -/
theorem C8_attr_counterexample :
    createForm ⟨some "T", none, [⟨some "a", none, none, none, false, none⟩]⟩
      "i" "h" [] =
      .ok (⟨"i", "h" ++ "/forms/" ++ "i"⟩,
        [("i", ⟨⟨some "T", none, [⟨some "a", none, none, none, false, none⟩]⟩,
          none, false⟩)]) := by
  rfl

/-- C8 amended: in the McpServer `createForm` loop, a field with a falsy id
but truthy `name` is accepted with `name` copied into `id`; a field whose id
is truthy is accepted as-is even with absent label or kind (which are not
validated, against the claim); a field whose id is still falsy after the
fallback fails with the id/name message; and the legacy Server variant
rejects a field with a falsy id unconditionally — it has no `name`
fallback. -/
theorem C8_attr_validation (f : Field) (hid : truthyOpt f.id = false)
    (hname : truthyOpt f.name = true) (hopts : badOptionsField f = false) :
    checkField f = .ok { f with id := f.name } ∧
    (∀ g : Field, truthyOpt g.id = true → badOptionsField g = false →
      checkField g = .ok g) ∧
    (∀ g : Field, truthyOpt (normalizeField g).id = false →
      checkField g = .error "Field must have \x27id\x27 or \x27name\x27 property") ∧
    (∀ g : Field, truthyOpt g.id = false →
      checkFieldLegacy g =
        .error "Invalid field: each field must have id, label, and type") := by
  refine ⟨?_, ?_, ?_, ?_⟩
  · have hn : normalizeField f = { f with id := f.name } := by
      unfold normalizeField; simp [hid, hname]
    unfold checkField
    rw [hn]
    have hidf : truthyOpt f.name = true := hname
    have hb : (isChoiceType f.type && optionsMissing f.options) = false := hopts
    simp [hidf, hb]
  · intro g hg hb
    have hn : normalizeField g = g := normalizeField_id_truthy g hg
    have hb1 : (isChoiceType g.type && optionsMissing g.options) = false := hb
    unfold checkField
    rw [hn]
    simp [hg, hb1]
  · intro g hg
    unfold checkField
    simp [hg]
  · intro g hg
    unfold checkFieldLegacy
    simp [hg]

/-- C8 witness: a field carrying only `name` is normalized and accepted. -/
theorem C8_attr_validation_witness :
    checkField ⟨none, some "n", none, some "text", false, none⟩ =
      .ok { Field.mk none (some "n") none (some "text") false none
              with id := some "n" } ∧
    (∀ g : Field, truthyOpt g.id = true → badOptionsField g = false →
      checkField g = .ok g) ∧
    (∀ g : Field, truthyOpt (normalizeField g).id = false →
      checkField g = .error "Field must have \x27id\x27 or \x27name\x27 property") ∧
    (∀ g : Field, truthyOpt g.id = false →
      checkFieldLegacy g =
        .error "Invalid field: each field must have id, label, and type") :=
  C8_attr_validation ⟨none, some "n", none, some "text", false, none⟩
    (by rfl) (by rfl) (by rfl)

/-- Conditional assignment does not disturb other keys. -/
theorem lookup_setIf_ne {α : Type} (b : Bool) (m : Assoc α) (k kq : String)
    (v : α) (h : kq ≠ k) : (setIf b m k v).lookup kq = m.lookup kq := by
  cases b <;> simp [setIf, lookup_setKey_ne _ _ _ _ h]

/-- Processing one field only writes the keys derived from that field's id:
every other key keeps its value in both the errors and responses objects. -/
theorem processField_preserve (f : Field) (d : Data) (es : Assoc String)
    (rs : Data) (k : String) (hk : k ≠ f.key) (es1 : Assoc String) (rs1 : Data)
    (h : processField f d es rs = some (es1, rs1)) :
    es1.lookup k = es.lookup k ∧ rs1.lookup k = rs.lookup k := by
  by_cases h1 : (f.type == some "checkbox") = true
  · simp only [processField, h1, if_true, Option.some.injEq, Prod.mk.injEq] at h
    obtain ⟨hes, hrs⟩ := h
    subst hes hrs
    exact ⟨by simp [lookup_setIf_ne _ _ _ _ _ hk],
           by simp [lookup_setKey_ne _ _ _ _ hk]⟩
  · have h1f : (f.type == some "checkbox") = false := eq_false_of_ne_true h1
    simp only [processField, h1f, Bool.false_eq_true, if_false] at h
    by_cases h2 : (f.required && isArrOpt (d.lookup f.key)) = true
    · rw [h2] at h
      simp at h
    · rw [eq_false_of_ne_true h2] at h
      simp only [Bool.false_eq_true, if_false, Option.some.injEq,
        Prod.mk.injEq] at h
      obtain ⟨hes, hrs⟩ := h
      subst hes hrs
      exact ⟨by simp [lookup_setIf_ne _ _ _ _ _ hk],
             by simp [lookup_setKey_ne _ _ _ _ hk]⟩

/-- Running the loop over fields none of which share a given key preserves
that key's entries in both accumulators. -/
theorem runFields_preserve :
    ∀ (fs : List Field) (d : Data) (es : Assoc String) (rs : Data)
      (k : String), (∀ g ∈ fs, k ≠ g.key) →
      ∀ (e : Assoc String) (r : Data), runFields fs d es rs = some (e, r) →
      e.lookup k = es.lookup k ∧ r.lookup k = rs.lookup k := by
  intro fs
  induction fs with
  | nil =>
    intro d es rs k hk e r h
    simp only [runFields, Option.some.injEq, Prod.mk.injEq] at h
    obtain ⟨he, hr⟩ := h
    subst he hr
    exact ⟨rfl, rfl⟩
  | cons g rest ih =>
    intro d es rs k hk e r h
    simp only [runFields] at h
    cases hp : processField g d es rs with
    | none => rw [hp] at h; cases h
    | some p =>
      obtain ⟨es₁, rs₁⟩ := p
      rw [hp] at h
      have h₁ := processField_preserve g d es rs k
        (hk g (List.mem_cons_self g rest)) es₁ rs₁ hp
      have h₂ := ih d es₁ rs₁ k
        (fun gq hgq => hk gq (List.mem_cons_of_mem _ hgq)) e r h
      exact ⟨h₂.1.trans h₁.1, h₂.2.trans h₁.2⟩

/-- The loop over an appended field list runs the two parts in sequence. -/
theorem runFields_append (xs ys : List Field) (d : Data) (es : Assoc String)
    (rs : Data) :
    runFields (xs ++ ys) d es rs =
      match runFields xs d es rs with
      | none => none
      | some (es1, rs1) => runFields ys d es1 rs1 := by
  induction xs generalizing es rs with
  | nil => simp [runFields]
  | cons f rest ih =>
    simp only [List.cons_append, runFields]
    cases processField f d es rs with
    | none => rfl
    | some p => obtain ⟨es1, rs1⟩ := p; simp [ih]

/-- A Boolean bridge: the filter-length test of the code equals `any`. -/
theorem filter_pos_eq_any {α : Type} (p : α → Bool) (l : List α) :
    decide (0 < (l.filter p).length) = l.any p := by
  induction l with
  | nil => rfl
  | cons a t ih =>
    by_cases hp : p a = true
    · simp [List.filter_cons, hp]
    · simp [List.filter_cons, hp, ih]

/-- A Boolean bridge: the `length == 0` test of the code equals `isEmpty`. -/
theorem length_beq_zero_eq_isEmpty {α : Type} (l : List α) :
    (l.length == 0) = l.isEmpty := by
  cases l <;> rfl

/-- The checkbox options test, with options present, equals the non-empty
and any-invalid-element formulation. -/
theorem cbOptsInvalid_eq (f : Field) (opts : List String) (norm : List String)
    (h : f.options = some opts) :
    cbOptsInvalid f norm =
      (!norm.isEmpty && norm.any (fun v => !(opts.contains v))) := by
  unfold cbOptsInvalid
  rw [h]
  cases norm with
  | nil => rfl
  | cons a t =>
    simp only [List.isEmpty_cons, Bool.not_false, Bool.true_and,
      List.length_cons]
    rw [← filter_pos_eq_any]
    simp

/-- Lookup under the error key after the two conditional error assignments
of the checkbox branch agrees with `checkboxError` (falling back to the old
entry when no error is recorded). -/
theorem checkbox_err_lookup (f : Field) (opts : List String)
    (norm : List String) (es : Assoc String) :
    (setIf (!norm.isEmpty && norm.any (fun v => !(opts.contains v)))
        (setIf (f.required && norm.isEmpty) es f.key
          (f.labelStr ++ " is required"))
        f.key ("Invalid options selected for " ++ f.labelStr)).lookup f.key =
      (match checkboxError f opts norm with
       | some m => some m
       | none => es.lookup f.key) := by
  unfold checkboxError
  cases hE : norm.isEmpty <;> cases hR : f.required <;>
    cases hA : norm.any (fun v => !(opts.contains v)) <;>
      simp [setIf, lookup_setKey_self, hE, hR, hA]

/-- Processing a checkbox field with options present records the normalized
list under the field's key and sets that key's error slot exactly as
`checkboxError` prescribes (leaving it untouched when there is no error). -/
theorem processField_checkbox_lookup (f : Field) (d : Data)
    (es : Assoc String) (rs : Data) (opts : List String)
    (hty : f.type = some "checkbox") (hopts : f.options = some opts)
    (es1 : Assoc String) (rs1 : Data)
    (h : processField f d es rs = some (es1, rs1)) :
    rs1.lookup f.key = some (.arr (normCheckbox (d.lookup f.key))) ∧
    es1.lookup f.key =
      (match checkboxError f opts (normCheckbox (d.lookup f.key)) with
       | some m => some m
       | none => es.lookup f.key) := by
  have h1 : (f.type == some "checkbox") = true := by simp [hty]
  simp only [processField, h1, if_true, Option.some.injEq, Prod.mk.injEq] at h
  obtain ⟨hes, hrs⟩ := h
  subst hes hrs
  refine ⟨lookup_setKey_self rs f.key _, ?_⟩
  rw [cbOptsInvalid_eq f opts _ hopts,
    length_beq_zero_eq_isEmpty (normCheckbox (d.lookup f.key))]
  exact checkbox_err_lookup f opts (normCheckbox (d.lookup f.key)) es

/-- C4: checkbox submission handling — for a checkbox field (with options
present, and field ids unique within the form), `validateFormData` stores the
normalized list (absent value → empty list, scalar → singleton, array kept)
under the field's id, records the required error naming the label when the
field is required and the list is empty, records the invalid-options error
naming the label when some element is not among the options, and records no
error for that field otherwise. -/
theorem C4_checkbox_validation (schema : Schema) (d : Data) (f : Field)
    (opts : List String) (errors : Assoc String) (responses : Data)
    (hmem : f ∈ schema.fields)
    (hnodup : (schema.fields.map Field.key).Nodup)
    (hty : f.type = some "checkbox") (hopts : f.options = some opts)
    (hrun : validateFormData schema d = some (errors, responses)) :
    responses.lookup f.key = some (.arr (normCheckbox (d.lookup f.key))) ∧
    errors.lookup f.key =
      checkboxError f opts (normCheckbox (d.lookup f.key)) := by
  obtain ⟨pre, post, hsplit⟩ := List.append_of_mem hmem
  unfold validateFormData at hrun
  rw [hsplit] at hnodup hrun
  rw [List.map_append, List.map_cons] at hnodup
  have hda := List.nodup_append.mp hnodup
  have hnotpre : f.key ∉ pre.map Field.key := by
    intro hmemq
    exact hda.2.2 hmemq (List.mem_cons_self _ _)
  have hnotpost : f.key ∉ post.map Field.key :=
    (List.nodup_cons.mp hda.2.1).1
  have hpre : ∀ g ∈ pre, f.key ≠ g.key := by
    intro g hg he
    exact hnotpre (he ▸ List.mem_map_of_mem Field.key hg)
  have hpost : ∀ g ∈ post, f.key ≠ g.key := by
    intro g hg he
    exact hnotpost (he ▸ List.mem_map_of_mem Field.key hg)
  rw [runFields_append] at hrun
  cases hp : runFields pre d [] [] with
  | none => rw [hp] at hrun; cases hrun
  | some p1 =>
    obtain ⟨e1, r1⟩ := p1
    rw [hp] at hrun
    simp only [runFields] at hrun
    cases hq : processField f d e1 r1 with
    | none => rw [hq] at hrun; cases hrun
    | some p2 =>
      obtain ⟨e2, r2⟩ := p2
      rw [hq] at hrun
      have hpre1 := runFields_preserve pre d [] [] f.key hpre e1 r1 hp
      have hcb := processField_checkbox_lookup f d e1 r1 opts hty hopts
        e2 r2 hq
      have hpost1 := runFields_preserve post d e2 r2 f.key hpost
        errors responses hrun
      constructor
      · rw [hpost1.2, hcb.1]
      · rw [hpost1.1, hcb.2]
        have hnil : e1.lookup f.key = none := by
          rw [hpre1.1]; rfl
        rw [hnil]
        cases checkboxError f opts (normCheckbox (d.lookup f.key)) <;> rfl

/-- C4 witness: a required checkbox with options ["x", "y"] submitted with
the single scalar value "x": the response is the singleton list and no error
is recorded. -/
theorem C4_checkbox_validation_witness :
    ([("c", FormValue.arr ["x"])] : Data).lookup
      (Field.mk (some "c") none (some "C") (some "checkbox") true
        (some ["x", "y"])).key =
      some (.arr (normCheckbox (([("c", FormValue.str "x")] : Data).lookup
        (Field.mk (some "c") none (some "C") (some "checkbox") true
          (some ["x", "y"])).key))) ∧
    (([] : Assoc String)).lookup
      (Field.mk (some "c") none (some "C") (some "checkbox") true
        (some ["x", "y"])).key =
      checkboxError
        (Field.mk (some "c") none (some "C") (some "checkbox") true
          (some ["x", "y"])) ["x", "y"]
        (normCheckbox (([("c", FormValue.str "x")] : Data).lookup
          (Field.mk (some "c") none (some "C") (some "checkbox") true
            (some ["x", "y"])).key)) :=
  C4_checkbox_validation
    ⟨some "T", none,
      [⟨some "c", none, some "C", some "checkbox", true, some ["x", "y"]⟩]⟩
    [("c", FormValue.str "x")]
    ⟨some "c", none, some "C", some "checkbox", true, some ["x", "y"]⟩
    ["x", "y"] [] [("c", FormValue.arr ["x"])]
    (by decide) (by decide) (by rfl) (by rfl) (by rfl)

end FormMcp
